import Mathlib

/-!
Verification development for the `socket.ts` WebSocket client
(`src/socket.ts`, `src/packet.ts`).  The `Packet` class (frame codec) and
the `WebSocket` connection state machine are embedded shallowly: buffers
are `List Nat` of byte values, thrown exceptions are `Except` errors, and
the process-wide random mask key is an explicit parameter.
-/

namespace SocketTs

/-- `buf.readUInt16BE(off)`: big-endian 16-bit read. -/
def readUInt16BE (l : List Nat) (off : Nat) : Nat :=
  256 * l.getD off 0 + l.getD (off + 1) 0

/-- `buf.readUInt32BE(off)`: big-endian 32-bit read. -/
def readUInt32BE (l : List Nat) (off : Nat) : Nat :=
  2 ^ 24 * l.getD off 0 + 2 ^ 16 * l.getD (off + 1) 0 +
    2 ^ 8 * l.getD (off + 2) 0 + l.getD (off + 3) 0

/-- `buf.writeUInt16BE(n)`: the two big-endian bytes of `n` (`n < 2^16`). -/
def be2 (n : Nat) : List Nat := [n / 256 % 256, n % 256]

/-- `buf.writeUInt32BE(n)`: the four big-endian bytes of `n` (`n < 2^32`). -/
def be4 (n : Nat) : List Nat :=
  [n / 2 ^ 24 % 256, n / 2 ^ 16 % 256, n / 2 ^ 8 % 256, n % 256]

/-- The four mask-key bytes as indexed by the codec (`mask_key[0..3]`). -/
def keyBytes (key : List Nat) : List Nat :=
  [key.getD 0 0, key.getD 1 0, key.getD 2 0, key.getD 3 0]

/-- Encoder masking loop of `Packet.frame`:
`payload[idx] ^= mask_key[idx % 4]`, starting at index `i`. -/
def maskFrom (key : List Nat) (i : Nat) : List Nat → List Nat
  | [] => []
  | b :: bs => (b ^^^ key.getD (i % 4) 0) :: maskFrom key (i + 1) bs

/-- Decoder unmasking loop of the `Packet` constructor:
`payload[idx] ^= mask_key[idx & 3]`, starting at index `i`. -/
def unmaskFrom (key : List Nat) (i : Nat) : List Nat → List Nat
  | [] => []
  | b :: bs => (b ^^^ key.getD (i &&& 3) 0) :: unmaskFrom key (i + 1) bs

/-- The three `throw` sites of the `Packet` constructor. -/
inductive PacketError where
  /-- `'control frames must be less than 125 bytes.'` -/
  | controlLength
  /-- `'control frames must not be fragmented.'` -/
  | controlFragmented
  /-- `'close frame length is not valid.'` -/
  | closeLength
deriving Repr, DecidableEq

/-- Mirror of the `Packet` instance fields after the constructor ran:
the parse-stage marker `state` (`GET_HEADER = 0`, `GET_PAYLOAD_LENGTH_16 = 1`,
`GET_PAYLOAD_LENGTH_64 = 2`, `GET_MASK_KEY = 3`, `GET_PAYLOAD = 4`,
`COMPLETE = 5`), the optional header fields, and `rest`, the unconsumed
tail of `this.data`. -/
structure PacketS where
  state : Nat
  fin : Option Bool
  rsv1 : Option Bool
  opcode : Option Nat
  mask : Option Bool
  payload : Option (List Nat)
  payload_length : Option Nat
  mask_key : Option (List Nat)
  close_code : Option Nat
  rest : List Nat
deriving Repr, DecidableEq

/-- `GET_PAYLOAD` block of the `Packet` constructor: extract and unmask the
payload, then run the close-frame post-processing. -/
def stagePayload (fin rsv1 : Bool) (opcode : Nat) (mask : Bool) (plen : Nat)
    (mkey : Option (List Nat)) (rest : List Nat) :
    Except PacketError PacketS :=
  if plen = 0 then
    .ok ⟨5, some fin, some rsv1, some opcode, some mask, some [], some plen,
         mkey, none, rest⟩
  else if rest.length < plen then
    .ok ⟨4, some fin, some rsv1, some opcode, some mask, none, some plen,
         mkey, none, rest⟩
  else
    let payload0 := rest.take plen
    let rest1 := rest.drop plen
    let payload1 :=
      match mkey with
      | some key =>
          if mask ∧ (key.getD 0 0 ||| key.getD 1 0 ||| key.getD 2 0 |||
              key.getD 3 0) ≠ 0
          then unmaskFrom key 0 payload0 else payload0
      | none => payload0
    if opcode = 8 ∧ plen = 1 then .error .closeLength
    else if opcode = 8 ∧ 2 ≤ plen then
      .ok ⟨5, some fin, some rsv1, some opcode, some mask,
           some (payload1.drop 2), some plen, mkey,
           some (readUInt16BE payload1 0), rest1⟩
    else
      .ok ⟨5, some fin, some rsv1, some opcode, some mask, some payload1,
           some plen, mkey, none, rest1⟩

/-- `GET_MASK_KEY` block: consume the 4 mask-key bytes when the mask flag
is set, then fall through to the payload stage. -/
def stageMaskKey (fin rsv1 : Bool) (opcode : Nat) (mask : Bool) (plen : Nat)
    (rest : List Nat) : Except PacketError PacketS :=
  if mask then
    if rest.length < 4 then
      .ok ⟨3, some fin, some rsv1, some opcode, some mask, none, some plen,
           none, none, rest⟩
    else stagePayload fin rsv1 opcode mask plen (some (rest.take 4))
      (rest.drop 4)
  else stagePayload fin rsv1 opcode mask plen none rest

/-- The `Packet` constructor: a single-shot parse of one delivered buffer.
Header bits, control-frame legality, extended lengths, mask key, payload,
close post-processing; on insufficient bytes it stops at the current stage. -/
def packetDecode (data : List Nat) : Except PacketError PacketS :=
  match data with
  | b0 :: b1 :: rest =>
    let fin := decide (b0 &&& 128 = 128)
    let rsv1 := decide (b0 &&& 64 = 64)
    let opcode := b0 &&& 15
    let mask := decide (b1 &&& 128 = 128)
    let len0 := b1 &&& 127
    if 8 ≤ opcode ∧ 125 < len0 then .error .controlLength
    else if 8 ≤ opcode ∧ fin = false then .error .controlFragmented
    else if len0 = 126 then
      if rest.length < 2 then
        .ok ⟨1, some fin, some rsv1, some opcode, some mask, none, some 126,
             none, none, rest⟩
      else stageMaskKey fin rsv1 opcode mask (readUInt16BE (rest.take 2) 0)
        (rest.drop 2)
    else if len0 = 127 then
      if rest.length < 8 then
        .ok ⟨2, some fin, some rsv1, some opcode, some mask, none, some 127,
             none, none, rest⟩
      else stageMaskKey fin rsv1 opcode mask
        (readUInt32BE (rest.take 8) 0 * 2 ^ 32 + readUInt32BE (rest.take 8) 4)
        (rest.drop 8)
    else stageMaskKey fin rsv1 opcode mask len0 rest
  | _ =>
    .ok ⟨0, none, none, none, none, none, none, none, none, data⟩

/-- `Packet.frame(opcode, payload, fin, rsv1, mask)`.  The 4 random mask-key
bytes are the explicit parameter `key`.  Returns the wire bytes together
with the payload buffer as it stands after the call (`Packet.frame` XORs
the caller's buffer in place when `mask` is set). -/
def frame (opcode : Nat) (payload : List Nat) (fin rsv1 mask : Bool)
    (key : List Nat) : List Nat × List Nat :=
  let size := payload.length
  let b0 := (if fin then 128 else 0) + opcode
  let b1 := (if mask then 128 else 0) +
    (if size < 126 then size else if size < 65536 then 126 else 127)
  let ext : List Nat :=
    if size < 126 then []
    else if size < 65536 then be2 size
    else be4 (size / 2 ^ 32) ++ be4 (size % 2 ^ 32)
  let payload1 := if mask then maskFrom (keyBytes key) 0 payload else payload
  (b0 :: b1 :: (ext ++ (if mask then keyBytes key else []) ++ payload1),
   payload1)

/-- `socket_on_data` over a sequence of transport delivery events: the
source constructs a fresh `Packet` per `'data'` event (`new Packet(data)`),
so each chunk yields at most the one frame that parses to `COMPLETE`
within that chunk; leftover bytes and partial parses are discarded when
the handler returns. -/
def chunkFrames (chunks : List (List Nat)) : List PacketS :=
  chunks.filterMap fun chunk =>
    match packetDecode chunk with
    | .ok p => if p.state = 5 then some p else none
    | .error _ => none

/-- Events `this.emit(...)` can fire on a connection. -/
inductive Ev where
  | openEv
  | message (p : Option (List Nat))
  | closeEv (code : Nat) (reason : List Nat)
  | errorEv
  | ping (p : Option (List Nat))
  | pong (p : Option (List Nat))
  | upgradeEv
  | httpResponse
deriving Repr, DecidableEq

/-- One observable action of a handler, in program order: a transport
write (`socket.write(...)`) or an event emission. -/
inductive Act where
  | write (bytes : List Nat)
  | emit (e : Ev)
deriving Repr, DecidableEq

/-- The mutable `WebSocket` fields the state machine touches: `state`
(`CONNECTING = 0`, `OPEN = 1`, `CLOSING = 2`, `CLOSED = 3`), `closeCode`,
`closeReason` (modelled as its UTF-8 bytes), and whether `req.destroy()`
has been called. -/
structure Conn where
  state : Nat
  closeCode : Nat
  closeReason : List Nat
  reqDestroyed : Bool
deriving Repr, DecidableEq

/-- `WebSocket.emit_close`: set `state = CLOSED` and emit
`'close'` with the recorded code and reason. -/
def emit_close (c : Conn) : Conn × List Act :=
  let c1 := { c with state := 3 }
  (c1, [.emit (.closeEv c1.closeCode c1.closeReason)])

/-- `WebSocket.emit_error_and_close`: set `state = CLOSING`, emit
`'error'`, then run `emit_close`. -/
def emit_error_and_close (c : Conn) : Conn × List Act :=
  let c1 := { c with state := 2 }
  let r := emit_close c1
  (r.1, .emit .errorEv :: r.2)

/-- `WebSocket.handshake_failed`: destroy the request, then
`emit_error_and_close`. -/
def handshake_failed (c : Conn) : Conn × List Act :=
  emit_error_and_close { c with reqDestroyed := true }

/-- `WebSocket.close(code, reason)`.  Returns the connection after the
call, the actions performed, and the thrown error message if any.
`reason` is the UTF-8 byte sequence of the reason string
(`Buffer.byteLength(reason)` is its length); `key` is the random mask key
used by `Packet.frame`. -/
def close (c : Conn) (code : Nat) (reason : List Nat) (key : List Nat) :
    Conn × List Act × Option String :=
  if c.state = 3 then (c, [], none)
  else if c.state = 0 then
    let r := handshake_failed c
    (r.1, r.2, none)
  else if c.state = 2 then (c, [], none)
  else
    let c1 := { c with state := 2 }
    if 123 < reason.length then
      (c1, [], some "close reason must be less than 132 bytes.")
    else
      let payload := be2 code ++ reason
      let c2 := { c1 with closeCode := code, closeReason := reason }
      (c2, [.write (frame 8 payload true false true key).1], none)

/-- `WebSocket.send(data)`: `data` is modelled as its byte sequence
together with the `Buffer.isBuffer` classification. -/
def send (c : Conn) (isBuf : Bool) (data : List Nat) (key : List Nat) :
    Conn × List Act × Option String :=
  if c.state = 0 then (c, [], some "send -> websocket is connecting.")
  else
    (c, [.write (frame (if isBuf then 2 else 1) data true false true key).1],
     none)

/-- `WebSocket.ping(data)`.  `data = none` models `undefined`
(`Buffer.from(undefined)` throws a `TypeError`). -/
def ping (c : Conn) (data : Option (List Nat)) (key : List Nat) :
    Conn × List Act × Option String :=
  if c.state = 0 then (c, [], some "ping -> websocket is connecting.")
  else
    match data with
    | none => (c, [], some "TypeError")
    | some payload =>
      if 125 < payload.length then
        (c, [], some "payload for PING(0x09) is longer than 125 bytes.")
      else (c, [.write (frame 9 payload true false true key).1], none)

/-- `WebSocket.pong(data)`; see `ping`. -/
def pong (c : Conn) (data : Option (List Nat)) (key : List Nat) :
    Conn × List Act × Option String :=
  if c.state = 0 then (c, [], some "pong -> websocket is connecting.")
  else
    match data with
    | none => (c, [], some "TypeError")
    | some payload =>
      if 125 < payload.length then
        (c, [], some "payload for PONG(0x0a) is longer than 125 bytes.")
      else (c, [.write (frame 10 payload true false true key).1], none)

/-- Thrown message of each `Packet` constructor error. -/
def packetErrMsg : PacketError → String
  | .controlLength => "control frames must be less than 125 bytes."
  | .controlFragmented => "control frames must not be fragmented."
  | .closeLength => "close frame length is not valid."

/-- UTF-8 bytes of the default close reason `'Abnormal Closure'`. -/
def abnormalClosure : List Nat :=
  [65, 98, 110, 111, 114, 109, 97, 108, 32, 67, 108, 111, 115, 117, 114,
   101]

/-- `WebSocket.socket_on_data(data)`: construct a fresh `Packet` from the
chunk and dispatch on its opcode.  In the Ping case `this.pong` is called
first — `Packet.frame` masks `packet.payload` in place with the random
key `key` — and only then is `'ping'` emitted with that same (now
mutated) buffer. -/
def socket_on_data (c : Conn) (chunk : List Nat) (key : List Nat) :
    Conn × List Act × Option String :=
  match packetDecode chunk with
  | .error e => (c, [], some (packetErrMsg e))
  | .ok p =>
    match p.opcode with
    | some 0 => (c, [], none)
    | some 1 => (c, [.emit (.message p.payload)], none)
    | some 2 => (c, [.emit (.message p.payload)], none)
    | some 8 =>
      let newCode :=
        match p.close_code with
        | some cc => if cc = 0 then 1006 else cc
        | none => 1006
      let newReason :=
        match p.payload with
        | some pl => if pl = [] then abnormalClosure else pl
        | none => abnormalClosure
      ({ c with closeCode := newCode, closeReason := newReason }, [], none)
    | some 9 =>
      let r := pong c p.payload key
      match r.2.2 with
      | some e => (r.1, r.2.1, some e)
      | none =>
        (r.1,
         r.2.1 ++ [.emit (.ping (p.payload.map
           fun pl => (frame 10 pl true false true key).2))],
         none)
    | some 10 => (c, [.emit (.pong p.payload)], none)
    | _ => (c, [], none)

/-- `req.on('timeout')` handler (fires when a handshake timeout was
configured). -/
def req_on_timeout (c : Conn) : Conn × List Act :=
  handshake_failed c

/-- `req.on('error')` handler. -/
def req_on_error (c : Conn) : Conn × List Act :=
  if c.reqDestroyed then (c, [])
  else emit_error_and_close { c with reqDestroyed := true }

/-- `req.on('response')` handler: emit `'http-response'`, then fail the
handshake. -/
def req_on_response (c : Conn) : Conn × List Act :=
  let r := handshake_failed c
  (r.1, .emit .httpResponse :: r.2)

/-- `socket.on('close')` handler. -/
def socket_on_close (c : Conn) : Conn × List Act :=
  emit_close c

/-- Every operation or event that can reach a connection after
construction. -/
inductive Step where
  | closeOp (code : Nat) (reason : List Nat) (key : List Nat)
  | sendOp (isBuf : Bool) (data : List Nat) (key : List Nat)
  | pingOp (data : Option (List Nat)) (key : List Nat)
  | pongOp (data : Option (List Nat)) (key : List Nat)
  | dataEv (chunk : List Nat) (key : List Nat)
  | reqTimeout
  | reqError
  | reqResponse
  | socketClose

/-- The connection reached after one step. -/
def step : Step → Conn → Conn
  | .closeOp code reason key, c => (close c code reason key).1
  | .sendOp isBuf data key, c => (send c isBuf data key).1
  | .pingOp data key, c => (ping c data key).1
  | .pongOp data key, c => (pong c data key).1
  | .dataEv chunk key, c => (socket_on_data c chunk key).1
  | .reqTimeout, c => (req_on_timeout c).1
  | .reqError, c => (req_on_error c).1
  | .reqResponse, c => (req_on_response c).1
  | .socketClose, c => (socket_on_close c).1

/-- Subprotocol acceptance in the `'upgrade'` handler: `requested` is the
validated `protocol_set` (as the requested list), `server` the
`sec-websocket-protocol` response header (`none` when absent; the empty
string is falsy in the source's `if(server_protocol)`).  Returns the
accepted server subprotocol, or the `handshake_failed` description. -/
def upgrade_negotiate (requested : List String) (server : Option String) :
    Except String (Option String) :=
  let sp := server.getD ""
  if sp ≠ "" then
    if requested = [] then
      .error "nothing was requested, but the server sent a subprotocol."
    else if sp ∉ requested then
      .error "server sent a invalid subprotocol."
    else .ok (some sp)
  else if requested ≠ [] then
    .error "server sent no subprotocol."
  else .ok none

/-- JavaScript `string.split(':')` on a string modelled as a character
list. -/
def splitColon : List Char → List (List Char)
  | [] => [[]]
  | ch :: rest =>
    if ch = ':' then [] :: splitColon rest
    else
      match splitColon rest with
      | [] => [[ch]]
      | h :: t => (ch :: h) :: t

/-- The Unix-domain branch of the constructor:
`socket_parts = client.path.split(':')`, `socketPath = socket_parts[0]`,
`path = socket_parts[1]`. -/
def unix_split (path : List Char) : List Char × Option (List Char) :=
  let parts := splitColon path
  (parts.headD [], parts[1]?)

theorem maskFrom_length (key : List Nat) : ∀ (i : Nat) (p : List Nat),
    (maskFrom key i p).length = p.length := by
  intro i p
  induction p generalizing i with
  | nil => rfl
  | cons b bs ih => simp [maskFrom, ih]

theorem unmaskFrom_maskFrom (key : List Nat) : ∀ (i : Nat) (p : List Nat),
    unmaskFrom key i (maskFrom key i p) = p := by
  intro i p
  induction p generalizing i with
  | nil => rfl
  | cons b bs ih =>
    have h3 : i &&& 3 = i % 4 := Nat.and_pow_two_sub_one_eq_mod i 2
    simp only [maskFrom, unmaskFrom, ih, h3, Nat.xor_cancel_right]

theorem maskFrom_zero_key (key : List Nat) (hk : ∀ j, key.getD j 0 = 0) :
    ∀ (i : Nat) (p : List Nat), maskFrom key i p = p := by
  intro i p
  induction p generalizing i with
  | nil => rfl
  | cons b bs ih =>
    simp only [maskFrom, ih, hk, Nat.xor_zero]

theorem or_eq_zero_parts {a b : Nat} (h : a ||| b = 0) : a = 0 ∧ b = 0 := by
  constructor <;> apply Nat.zero_of_testBit_eq_false <;> intro i <;>
    have h2 := congrArg (fun x => Nat.testBit x i) h <;>
    simp [Nat.testBit_or] at h2
  · exact h2.1
  · exact h2.2

theorem and127_eq (x : Nat) : x &&& 127 = x % 128 :=
  Nat.and_pow_two_sub_one_eq_mod x 7

theorem and15_eq (x : Nat) : x &&& 15 = x % 16 :=
  Nat.and_pow_two_sub_one_eq_mod x 4

theorem and128_of_lt (x : Nat) (h : x < 128) : x &&& 128 = 0 := by
  interval_cases x <;> rfl

theorem and128_high (x : Nat) (h : x < 128) : (128 + x) &&& 128 = 128 := by
  interval_cases x <;> rfl

theorem and64_high (x : Nat) (h : x < 16) : (128 + x) &&& 64 = 0 := by
  interval_cases x <;> rfl

/-- C9: for every payload of length `L`, the encoded frame's header plus
length-extension occupies exactly 2 bytes when `L < 126`, 4 bytes when
`126 ≤ L < 65536`, 10 bytes when `L ≥ 65536`, plus 4 additional bytes
exactly when `mask` is set; the total encoded length is that header size
plus `L`. -/
theorem frame_header_size_law (opcode : Nat) (payload : List Nat)
    (fin rsv1 mask : Bool) (key : List Nat) :
    (frame opcode payload fin rsv1 mask key).1.length =
      2 + (if payload.length < 126 then 0
           else if payload.length < 65536 then 2 else 8) +
        (if mask then 4 else 0) + payload.length := by
  unfold frame
  by_cases h1 : payload.length < 126 <;>
    by_cases h2 : payload.length < 65536 <;>
    cases mask <;>
    simp [h1, h2, be2, be4, keyBytes, maskFrom_length] <;> omega

/-- C1 (code bug): decoding is *not* chunk-boundary independent.  The
complete Text frame `0x81 0x01 0x41` fed as one `'data'` chunk yields one
complete frame, while the same bytes fed one per chunk yield none: each
delivery event constructs a fresh `Packet`, so partial parses and
unconsumed bytes are discarded between deliveries. -/
theorem chunked_decode_differs_from_whole :
    chunkFrames [[0x81, 0x01, 0x41]] ≠ chunkFrames [[0x81], [0x01], [0x41]] ∧
    (chunkFrames [[0x81, 0x01, 0x41]]).length = 1 ∧
    chunkFrames [[0x81], [0x01], [0x41]] = [] :=
  ⟨by decide, by decide, by decide⟩

/-- C3: for every input whose first two header bytes give `opcode ≥ 8`
and either a 7-bit length field `> 125` or `fin = false`, decode fails
with a protocol error and never produces a frame. -/
theorem control_frame_legality (b0 b1 : Nat) (rest : List Nat)
    (hop : 8 ≤ b0 &&& 15)
    (hbad : 125 < b1 &&& 127 ∨ b0 &&& 128 ≠ 128) :
    ∃ e, packetDecode (b0 :: b1 :: rest) = .error e := by
  unfold packetDecode
  by_cases hl : 125 < b1 &&& 127
  · exact ⟨.controlLength, by simp [hop, hl]⟩
  · have hfin : b0 &&& 128 ≠ 128 := hbad.resolve_left hl
    exact ⟨.controlFragmented, by simp [hop, hl, hfin]⟩

/-- Witness for C3: a Ping frame (`opcode = 9`) with `fin = false` is
rejected. -/
theorem control_frame_legality_witness :
    ∃ e, packetDecode (0x09 :: 0x00 :: []) = .error e :=
  control_frame_legality 9 0 [] (by decide) (Or.inr (by decide))

/-- C5: subprotocol negotiation enforces all combinations.  Requested
`["chat","superchat"]` with reply `"chat"` is accepted as `"chat"`;
reply `"other"` fails; no request with any non-empty reply fails;
non-empty request with absent reply fails; no request and no reply is
accepted with no subprotocol. -/
theorem subprotocol_negotiation :
    upgrade_negotiate ["chat", "superchat"] (some "chat") =
      .ok (some "chat") ∧
    (∃ msg, upgrade_negotiate ["chat", "superchat"] (some "other") =
      .error msg) ∧
    (∀ s : String, s ≠ "" →
      ∃ msg, upgrade_negotiate [] (some s) = .error msg) ∧
    (∃ msg, upgrade_negotiate ["chat", "superchat"] none = .error msg) ∧
    upgrade_negotiate [] none = .ok none := by
  refine ⟨rfl, ⟨_, rfl⟩, ?_, ⟨_, rfl⟩, rfl⟩
  intro s hs
  refine ⟨"nothing was requested, but the server sent a subprotocol.", ?_⟩
  simp [upgrade_negotiate, hs]

/-- Witness for C5: the quantified conjunct at the concrete reply
`"x"`. -/
theorem subprotocol_negotiation_witness :
    ∃ msg, upgrade_negotiate [] (some "x") = .error msg :=
  subprotocol_negotiation.2.2.1 "x" (by decide)

theorem splitColon_ne_nil : ∀ l : List Char, splitColon l ≠ [] := by
  intro l
  induction l with
  | nil => simp [splitColon]
  | cons c rest ih =>
    by_cases hc : c = ':'
    · simp [splitColon, hc]
    · simp only [splitColon, if_neg hc]
      cases h : splitColon rest with
      | nil => simp
      | cons a t => simp

theorem splitColon_append (a r : List Char) (ha : ':' ∉ a) :
    splitColon (a ++ ':' :: r) = a :: splitColon r := by
  induction a with
  | nil => simp [splitColon]
  | cons c cs ih =>
    have hc : c ≠ ':' := fun h => ha (h ▸ List.mem_cons_self c cs)
    have ha2 : ':' ∉ cs := fun h => ha (List.mem_cons_of_mem c h)
    have hr := ih ha2
    simp only [List.cons_append, splitColon, if_neg hc]
    show (match splitColon (cs ++ ':' :: r) with
          | [] => [[c]]
          | h :: t => (c :: h) :: t) = (c :: cs) :: splitColon r
    rw [hr]

/-- Counterexample to C7: for the path
`"/tmp/app.sock:/rpc:admin"` the code assigns HTTP path `"/rpc"`, the
segment between the first and second `':'`, not the entire remainder
`"/rpc:admin"` after the first `':'`. -/
theorem unix_split_counterexample :
    unix_split ("/tmp/app.sock:/rpc:admin".toList) =
      (("/tmp/app.sock").toList, some (("/rpc").toList)) ∧
    ("/rpc").toList ≠ ("/rpc:admin").toList :=
  ⟨by decide, by decide⟩

theorem splitColon_no_colon (b : List Char) (hb : ':' ∉ b) :
    splitColon b = [b] := by
  induction b with
  | nil => rfl
  | cons c cs ih =>
    have hc : c ≠ ':' := fun h => hb (h ▸ List.mem_cons_self c cs)
    have hb2 : ':' ∉ cs := fun h => hb (List.mem_cons_of_mem c h)
    simp only [splitColon, if_neg hc, ih hb2]

/-- C7 amended: the URL path is split on *every* `':'`; the segment
before the first `':'` becomes the socket path and only the segment
between the first and second `':'` (the whole remainder when there is no
second `':'`) becomes the HTTP request path.  Stated for both shapes: a
path with two or more colons (the part after the second colon is
dropped) and a path with exactly one colon (the whole remainder is the
HTTP path). -/
theorem unix_split_segments (a b cc : List Char) (ha : ':' ∉ a)
    (hb : ':' ∉ b) :
    unix_split (a ++ (':' :: (b ++ (':' :: cc)))) = (a, some b) ∧
    unix_split (a ++ (':' :: b)) = (a, some b) := by
  constructor
  · unfold unix_split
    rw [splitColon_append a _ ha, splitColon_append b cc hb]
    simp
  · unfold unix_split
    rw [splitColon_append a b ha, splitColon_no_colon b hb]
    simp

/-- Witness for the amended C7 at concrete segments, covering both the
two-colon and the one-colon shape. -/
theorem unix_split_segments_witness :
    unix_split (("a".toList) ++ (':' :: (("b".toList) ++
      (':' :: "c".toList)))) = ("a".toList, some ("b".toList)) ∧
    unix_split (("a".toList) ++ (':' :: "b".toList)) =
      ("a".toList, some ("b".toList)) :=
  ⟨(unix_split_segments "a".toList "b".toList "c".toList (by decide)
      (by decide)).1,
   (unix_split_segments "a".toList "b".toList "c".toList (by decide)
      (by decide)).2⟩

theorem pong_conn (c : Conn) (d : Option (List Nat)) (k : List Nat) :
    (pong c d k).1 = c := by
  unfold pong
  split
  · rfl
  · split
    · rfl
    · split <;> rfl

set_option maxRecDepth 4000 in
/-- Counterexample to C6: with the connection `Open` and a 124-byte
reason, `close` throws the size error but the state has already been set
to `Closing` (2) — it does *not* remain `Open` (1). -/
theorem close_open_counterexample :
    ((close ⟨1, 1006, [], false⟩ 1000 (List.replicate 124 97) []).2.2 =
      some "close reason must be less than 132 bytes.") ∧
    (close ⟨1, 1006, [], false⟩ 1000 (List.replicate 124 97) []).1.state
      = 2 ∧
    (close ⟨1, 1006, [], false⟩ 1000 (List.replicate 124 97) []).1.state
      ≠ 1 := by
  refine ⟨by decide, by decide, by decide⟩

/-- C6 amended: `close` in state `Open` transitions to `Closing` first
and only then validates the reason length; a reason over 123 bytes makes
the call fail with the size error with no frame written (state now
`Closing`), and otherwise a masked close frame with payload
big-endian-code ++ reason is written. -/
theorem close_open_behavior (c : Conn) (code : Nat) (reason key : List Nat)
    (h : c.state = 1) :
    (close c code reason key).1.state = 2 ∧
    (123 < reason.length →
      close c code reason key =
        ({c with state := 2}, [],
         some "close reason must be less than 132 bytes.")) ∧
    (reason.length ≤ 123 →
      close c code reason key =
        ({c with state := 2, closeCode := code, closeReason := reason},
         [.write (frame 8 (be2 code ++ reason) true false true key).1],
         none)) := by
  unfold close
  by_cases hr : 123 < reason.length <;> simp [h, hr]

/-- Witness for the amended C6. -/
theorem close_open_behavior_witness :
    (close ⟨1, 1006, [], false⟩ 1000 [] []).1.state = 2 :=
  (close_open_behavior ⟨1, 1006, [], false⟩ 1000 [] [] rfl).1

/-- C8: `Closed` is terminal — every operation or event applied to a
connection in state `Closed` (3) leaves it in state 3, and a `close()`
call on a closed connection is a complete no-op. -/
theorem closed_terminal (c : Conn) (h : c.state = 3) :
    (∀ s : Step, (step s c).state = 3) ∧
    (∀ (code : Nat) (reason key : List Nat),
      close c code reason key = (c, [], none)) := by
  have hclose : ∀ (code : Nat) (reason key : List Nat),
      close c code reason key = (c, [], none) := by
    intro code reason key
    unfold close
    simp [h]
  refine ⟨?_, hclose⟩
  intro s
  cases s with
  | closeOp code reason key => simp [step, hclose, h]
  | sendOp isBuf data key => simp [step, send, h]
  | pingOp data key =>
    simp only [step, ping, h]
    rcases data with _ | payload
    · exact h
    · by_cases hp : 125 < payload.length <;> simp [hp, h]
  | pongOp data key =>
    simp only [step, pong, h]
    rcases data with _ | payload
    · exact h
    · by_cases hp : 125 < payload.length <;> simp [hp, h]
  | dataEv chunk key =>
    simp only [step, socket_on_data]
    rcases hd : packetDecode chunk with e | p
    · simp [h]
    · simp only []
      split
      · exact h
      · exact h
      · exact h
      · exact h
      · split <;> simp [pong_conn, h]
      · exact h
      · exact h
  | reqTimeout =>
    simp [step, req_on_timeout, handshake_failed, emit_error_and_close,
      emit_close]
  | reqError =>
    simp only [step, req_on_error]
    split
    · exact h
    · simp [emit_error_and_close, emit_close]
  | reqResponse =>
    simp [step, req_on_response, handshake_failed, emit_error_and_close,
      emit_close]
  | socketClose => simp [step, socket_on_close, emit_close]

/-- Witness for C8 at a concrete closed connection. -/
theorem closed_terminal_witness :
    (step .reqTimeout ⟨3, 1000, [], true⟩).state = 3 ∧
    close ⟨3, 1000, [], true⟩ 1001 [] [] =
      (⟨3, 1000, [], true⟩, [], none) :=
  ⟨(closed_terminal ⟨3, 1000, [], true⟩ rfl).1 .reqTimeout,
   (closed_terminal ⟨3, 1000, [], true⟩ rfl).2 1001 [] []⟩

/-- C4: decoding an (unmasked, final) Close frame of payload length `L`:
`L = 1` fails with the close-length protocol error; `L ≥ 2` yields
`close_code` equal to the big-endian 16-bit integer in the first two
payload bytes with the remaining bytes as the decoded payload; `L = 0`
yields a complete frame with no `close_code` (1006 is applied at the
connection level, not in the frame). -/
theorem close_frame_postprocessing (payload : List Nat)
    (hlen : payload.length ≤ 125) :
    (payload.length = 1 →
      packetDecode (0x88 :: payload.length :: payload) =
        .error .closeLength) ∧
    (2 ≤ payload.length →
      packetDecode (0x88 :: payload.length :: payload) =
        .ok ⟨5, some true, some false, some 8, some false,
             some (payload.drop 2), some payload.length, none,
             some (readUInt16BE payload 0), []⟩) ∧
    (payload.length = 0 →
      packetDecode (0x88 :: payload.length :: payload) =
        .ok ⟨5, some true, some false, some 8, some false, some [],
             some 0, none, none, []⟩) := by
  have hmask : payload.length &&& 128 = 0 := and128_of_lt _ (by omega)
  have hlen0 : payload.length &&& 127 = payload.length := by
    rw [and127_eq]; omega
  have h15 : (136 : Nat) &&& 15 = 8 := by decide
  have h128 : (136 : Nat) &&& 128 = 128 := by decide
  have h64 : (136 : Nat) &&& 64 = 0 := by decide
  have c1 : ¬(125 < payload.length) := by omega
  have c3 : payload.length ≠ 126 := by omega
  have c4 : payload.length ≠ 127 := by omega
  refine ⟨?_, ?_, ?_⟩
  · intro h1
    unfold packetDecode stageMaskKey stagePayload
    simp only [hmask, hlen0, h15, h128, h64]
    simp [c1, c3, c4, h1]
  · intro h2
    have c5 : payload.length ≠ 0 := by omega
    have c7 : payload.length ≠ 1 := by omega
    have c6 : ¬(payload.length < payload.length) := by omega
    unfold packetDecode stageMaskKey stagePayload
    simp only [hmask, hlen0, h15, h128, h64]
    simp [c1, c3, c4, c5, c6, c7, h2]
  · intro h0
    unfold packetDecode stageMaskKey stagePayload
    simp only [hmask, hlen0, h15, h128, h64]
    simp [c1, c3, c4, h0]
    exact List.eq_nil_of_length_eq_zero h0

/-- Witness for C4: Close frame with code 1000 and reason `"A"`. -/
theorem close_frame_postprocessing_witness :
    packetDecode [0x88, 3, 3, 232, 65] =
      .ok ⟨5, some true, some false, some 8, some false, some [65],
           some 3, none, some 1000, []⟩ := by
  have h := (close_frame_postprocessing [3, 232, 65] (by decide)).2.1
    (by decide)
  simpa [readUInt16BE] using h

theorem keyBytes_length (key : List Nat) : (keyBytes key).length = 4 := rfl

theorem stageMaskKey_masked (fin rsv1 : Bool) (opcode : Nat)
    (payload key : List Nat) (hne : opcode ≠ 8) :
    stageMaskKey fin rsv1 opcode true payload.length
      (keyBytes key ++ maskFrom (keyBytes key) 0 payload) =
    .ok ⟨5, some fin, some rsv1, some opcode, some true, some payload,
         some payload.length, some (keyBytes key), none, []⟩ := by
  have hml := maskFrom_length (keyBytes key) 0 payload
  have htake : (keyBytes key ++ maskFrom (keyBytes key) 0 payload).take 4 =
      keyBytes key := List.take_left' (keyBytes_length key)
  have hdrop : (keyBytes key ++ maskFrom (keyBytes key) 0 payload).drop 4 =
      maskFrom (keyBytes key) 0 payload :=
    List.drop_left' (keyBytes_length key)
  have hrl : (keyBytes key ++ maskFrom (keyBytes key) 0 payload).length =
      4 + payload.length := by
    rw [List.length_append, keyBytes_length, hml]
  unfold stageMaskKey
  rw [if_pos rfl, if_neg (by rw [hrl]; omega), htake, hdrop]
  unfold stagePayload
  by_cases h0 : payload.length = 0
  · rw [if_pos h0]
    have hp : payload = [] := List.eq_nil_of_length_eq_zero h0
    subst hp
    simp [maskFrom]
  · rw [if_neg h0, if_neg (by rw [hml]; omega)]
    have htake2 : (maskFrom (keyBytes key) 0 payload).take payload.length =
        maskFrom (keyBytes key) 0 payload := by
      rw [← hml]; exact List.take_length _
    have hdrop2 : (maskFrom (keyBytes key) 0 payload).drop payload.length =
        [] := by
      rw [← hml]; exact List.drop_length _
    rw [htake2, hdrop2]
    simp only [hne, false_and, and_false, if_false]
    simp [hne, unmaskFrom_maskFrom]
    intro hc
    have hc2 : (keyBytes key).getD 0 0 ||| (keyBytes key).getD 1 0 |||
        (keyBytes key).getD 2 0 ||| (keyBytes key).getD 3 0 = 0 := hc
    have hz := or_eq_zero_parts hc2
    have hz2 := or_eq_zero_parts hz.1
    have hz3 := or_eq_zero_parts hz2.1
    have hzero : ∀ j, (keyBytes key).getD j 0 = 0 := by
      intro j
      match j with
      | 0 => exact hz3.1
      | 1 => exact hz3.2
      | 2 => exact hz2.2
      | 3 => exact hz.2
      | (n + 4) => rfl
    exact maskFrom_zero_key (keyBytes key) hzero 0 payload

/-- C2 amended: decode ∘ encode round trip for `fin = true`,
`rsv1 = false`, `mask = true` and any 4-byte random key, restricted as the
counterexample forces: the opcode is a 4-bit value other than Close (8),
control opcodes carry at most 125 payload bytes, and the payload length is
below `2^64` (the 64-bit length extension).  Decoding the encoded bytes
yields one complete frame with the original opcode and payload and no
leftover bytes. -/
theorem frame_roundtrip (opcode : Nat) (payload key : List Nat)
    (hop : opcode < 16) (hne : opcode ≠ 8)
    (hctl : opcode < 8 ∨ payload.length ≤ 125)
    (hlen : payload.length < 2 ^ 64) :
    packetDecode (frame opcode payload true false true key).1 =
      .ok ⟨5, some true, some false, some opcode, some true, some payload,
           some payload.length, some (keyBytes key), none, []⟩ := by
  have hb0f : (128 + opcode) &&& 128 = 128 := and128_high opcode (by omega)
  have hb0r : (128 + opcode) &&& 64 = 0 := and64_high opcode hop
  have hb0o : (128 + opcode) &&& 15 = opcode := by rw [and15_eq]; omega
  by_cases hA : payload.length < 126
  · have hframe : (frame opcode payload true false true key).1 =
        (128 + opcode) :: (128 + payload.length) ::
          (keyBytes key ++ maskFrom (keyBytes key) 0 payload) := by
      unfold frame
      simp [hA]
    have hb1m : (128 + payload.length) &&& 128 = 128 :=
      and128_high _ (by omega)
    have hb1l : (128 + payload.length) &&& 127 = payload.length := by
      rw [and127_eq]; omega
    have hc1 : ¬(8 ≤ opcode ∧ 125 < payload.length) := by
      rcases hctl with h | h <;> omega
    have hc3 : payload.length ≠ 126 := by omega
    have hc4 : payload.length ≠ 127 := by omega
    rw [hframe]
    unfold packetDecode
    simp only [hb0f, hb0r, hb0o, hb1m, hb1l]
    simp [hc1, hc3, hc4,
      stageMaskKey_masked true false opcode payload key hne]
  · by_cases hB : payload.length < 65536
    · have hframe : (frame opcode payload true false true key).1 =
          (128 + opcode) :: 254 :: (be2 payload.length ++
            (keyBytes key ++ maskFrom (keyBytes key) 0 payload)) := by
        unfold frame
        simp [hA, hB]
      have hc1 : opcode < 8 := by rcases hctl with h | h <;> omega
      have h254m : (254 : Nat) &&& 128 = 128 := by decide
      have h254l : (254 : Nat) &&& 127 = 126 := by decide
      have hcc : ¬(8 ≤ opcode ∧ (125 : Nat) < 126) := by omega
      have hb2 : (be2 payload.length ++ (keyBytes key ++
          maskFrom (keyBytes key) 0 payload)).take 2 = be2 payload.length :=
        List.take_left' rfl
      have hb2d : (be2 payload.length ++ (keyBytes key ++
          maskFrom (keyBytes key) 0 payload)).drop 2 =
          keyBytes key ++ maskFrom (keyBytes key) 0 payload :=
        List.drop_left' rfl
      have hlval : readUInt16BE (be2 payload.length) 0 = payload.length := by
        simp [readUInt16BE, be2, List.getD]
        omega
      rw [hframe]
      unfold packetDecode
      simp only [hb0f, hb0r, hb0o, h254m, h254l]
      have hnot8 : ¬(8 ≤ opcode) := by omega
      have hbl : (be2 payload.length).length = 2 := rfl
      have hq : ¬((2 : Nat) + (4 + payload.length) < 2) := by omega
      simp [hcc, hnot8, hb2, hb2d, hlval, hbl, hq, List.length_append,
        keyBytes_length, maskFrom_length,
        stageMaskKey_masked true false opcode payload key hne]
    · have hframe : (frame opcode payload true false true key).1 =
          (128 + opcode) :: 255 :: ((be4 (payload.length / 2 ^ 32) ++
            be4 (payload.length % 2 ^ 32)) ++
            (keyBytes key ++ maskFrom (keyBytes key) 0 payload)) := by
        unfold frame
        simp [hA, hB]
      have hc1 : opcode < 8 := by rcases hctl with h | h <;> omega
      have h255m : (255 : Nat) &&& 128 = 128 := by decide
      have h255l : (255 : Nat) &&& 127 = 127 := by decide
      have hnot8 : ∀ X : Prop, ¬(8 ≤ opcode ∧ X) := fun X h => by omega
      have hext : (be4 (payload.length / 2 ^ 32) ++
          be4 (payload.length % 2 ^ 32)).length = 8 := rfl
      have hb8 : ((be4 (payload.length / 2 ^ 32) ++
          be4 (payload.length % 2 ^ 32)) ++ (keyBytes key ++
          maskFrom (keyBytes key) 0 payload)).take 8 =
          be4 (payload.length / 2 ^ 32) ++ be4 (payload.length % 2 ^ 32) :=
        List.take_left' hext
      have hb8d : ((be4 (payload.length / 2 ^ 32) ++
          be4 (payload.length % 2 ^ 32)) ++ (keyBytes key ++
          maskFrom (keyBytes key) 0 payload)).drop 8 =
          keyBytes key ++ maskFrom (keyBytes key) 0 payload :=
        List.drop_left' hext
      have hq3 : ¬(((be4 (payload.length / 2 ^ 32) ++
          be4 (payload.length % 2 ^ 32)) ++ (keyBytes key ++
          maskFrom (keyBytes key) 0 payload)).length < 8) := by
        rw [List.length_append, hext]
        omega
      have hlval : readUInt32BE (be4 (payload.length / 2 ^ 32) ++
            be4 (payload.length % 2 ^ 32)) 0 * 2 ^ 32 +
          readUInt32BE (be4 (payload.length / 2 ^ 32) ++
            be4 (payload.length % 2 ^ 32)) 4 = payload.length := by
        simp [readUInt32BE, be4, List.getD]
        omega
      rw [hframe]
      unfold packetDecode
      simp only [hb0f, hb0r, hb0o, h255m, h255l]
      rw [if_neg (hnot8 _), if_neg (hnot8 _),
        if_neg (show ¬((127 : Nat) = 126) by decide)]
      simp only [if_true]
      rw [if_neg hq3, hb8, hb8d, hlval]
      exact stageMaskKey_masked true false opcode payload key hne

/-- Counterexample to C2 as stated: for opcode 8 (Close) the decoder
strips the first two payload bytes into `close_code`, so the decoded
payload `[]` differs from the original `[3, 232]`. -/
theorem frame_roundtrip_counterexample :
    packetDecode (frame 8 [3, 232] true false true [1, 2, 3, 4]).1 =
      .ok ⟨5, some true, some false, some 8, some true, some [], some 2,
           some [1, 2, 3, 4], some 1000, []⟩ ∧
    ([] : List Nat) ≠ [3, 232] :=
  ⟨rfl, by decide⟩

/-- Witness for the amended C2 at a concrete Text frame. -/
theorem frame_roundtrip_witness :
    packetDecode (frame 1 [104, 105] true false true [7, 7, 7, 7]).1 =
      .ok ⟨5, some true, some false, some 1, some true, some [104, 105],
           some 2, some (keyBytes [7, 7, 7, 7]), none, []⟩ :=
  frame_roundtrip 1 [104, 105] [7, 7, 7, 7] (by decide) (by decide)
    (Or.inl (by decide)) (by decide)

theorem ping_decode (payload : List Nat) (hlen : payload.length ≤ 125) :
    packetDecode (0x89 :: payload.length :: payload) =
      .ok ⟨5, some true, some false, some 9, some false, some payload,
           some payload.length, none, none, []⟩ := by
  have hmask : payload.length &&& 128 = 0 := and128_of_lt _ (by omega)
  have hlen0 : payload.length &&& 127 = payload.length := by
    rw [and127_eq]; omega
  have h15 : (137 : Nat) &&& 15 = 9 := by decide
  have h128 : (137 : Nat) &&& 128 = 128 := by decide
  have h64 : (137 : Nat) &&& 64 = 0 := by decide
  have c1 : ¬(125 < payload.length) := by omega
  have c3 : payload.length ≠ 126 := by omega
  have c4 : payload.length ≠ 127 := by omega
  by_cases h0 : payload.length = 0
  · have hp : payload = [] := List.eq_nil_of_length_eq_zero h0
    subst hp
    rfl
  · have c6 : ¬(payload.length < payload.length) := by omega
    unfold packetDecode stageMaskKey stagePayload
    simp only [hmask, hlen0, h15, h128, h64]
    simp [c1, c3, c4, h0, c6]

/-- C10: `Packet.frame` with `mask = true` mutates its payload buffer in
place — afterwards the caller's buffer holds the XOR-masked bytes — and
in Ping dispatch the auto-pong (`this.pong(packet.payload)`, which
re-encodes and thereby masks that same buffer) runs before `'ping'` is
emitted, so the `'ping'` event surfaces the mutated buffer
`maskFrom (keyBytes key) 0 payload`, not the payload as received. -/
theorem ping_dispatch_mutates (c : Conn) (payload key : List Nat)
    (hst : c.state = 1) (hlen : payload.length ≤ 125) :
    (frame 10 payload true false true key).2 =
      maskFrom (keyBytes key) 0 payload ∧
    socket_on_data c (0x89 :: payload.length :: payload) key =
      (c, [.write (frame 10 payload true false true key).1,
           .emit (.ping (some (maskFrom (keyBytes key) 0 payload)))],
       none) := by
  refine ⟨rfl, ?_⟩
  unfold socket_on_data
  rw [ping_decode payload hlen]
  simp only [pong, hst]
  have hgt : ¬(125 < payload.length) := by omega
  norm_num [hgt]
  rfl

/-- Witness for C10: payload `[65]` with pong key `[1,0,0,0]` surfaces
`[64]`, not `[65]`. -/
theorem ping_dispatch_mutates_witness :
    socket_on_data ⟨1, 1006, [], false⟩ [0x89, 1, 65] [1, 0, 0, 0] =
      (⟨1, 1006, [], false⟩,
       [.write (frame 10 [65] true false true [1, 0, 0, 0]).1,
        .emit (.ping (some (maskFrom (keyBytes [1, 0, 0, 0]) 0 [65])))],
       none) ∧
    maskFrom (keyBytes [1, 0, 0, 0]) 0 [65] ≠ [65] :=
  ⟨(ping_dispatch_mutates ⟨1, 1006, [], false⟩ [65] [1, 0, 0, 0] rfl
      (by decide)).2,
   by decide⟩

end SocketTs
